import Mathlib

/-!
Verification of the Saqr backend's session-scoped event-streaming subsystem.

Shallow embedding of the Python source:
* `backend/app/features/agent/dspy/callback.py` — `ReActCallback`'s operation
  queue (`_queue_operation` / `_process_operation_queue`), modelled as a
  labelled transition system over the cooperative (asyncio) scheduler.
* `backend/app/infrastructure/caching/redis.py` — `RedisSessionManager` and
  `RedisStorage` (`add_message`, `update_message`, `upsert_message`,
  `delete_session`, quota checks), modelled as pure functions over an
  association-list keyspace.  ISO-8601 timestamps are abstracted as naturals,
  `uuid.uuid4()` calls are threaded as explicit `fresh` arguments, and Redis
  TTL/expiry bookkeeping is not modelled (no claim depends on it).
* `backend/app/features/chat/services/chat_service.py` —
  `update_reasoning_message`, `add_tool_call_to_event`, `get_tool_display_name`.
* `backend/app/features/chat/repositories/websocket_repository.py` —
  `WebSocketRepository.connect` / `disconnect` / `broadcast_to_chat`.
* `backend/app/features/chat/services/redis_chat_service.py` —
  `uuid_to_objectid` / `_objectid_to_uuid`, with a full executable MD5.
-/

namespace Saqr

/-! ## Association-list helpers (model of Redis keyed hashes) -/

def lookupKey {κ α : Type} [DecidableEq κ] (k : κ) : List (κ × α) → Option α
  | [] => none
  | (k2, v) :: rest => if k2 = k then some v else lookupKey k rest

def setKey {κ α : Type} [DecidableEq κ] (k : κ) (v : α) : List (κ × α) → List (κ × α)
  | [] => [(k, v)]
  | (k2, v2) :: rest => if k2 = k then (k, v) :: rest else (k2, v2) :: setKey k v rest

theorem lookupKey_setKey_self {κ α : Type} [DecidableEq κ] (k : κ) (v : α) :
    ∀ l : List (κ × α), lookupKey k (setKey k v l) = some v := by
  intro l
  induction l with
  | nil => simp [lookupKey, setKey]
  | cons hd tl ih =>
    obtain ⟨k2, v2⟩ := hd
    by_cases h : k2 = k <;> simp [lookupKey, setKey, h, ih]

theorem setKey_eq_of_lookup {κ α : Type} [DecidableEq κ] (k : κ) (v : α) :
    ∀ l : List (κ × α), lookupKey k l = some v → setKey k v l = l := by
  intro l
  induction l with
  | nil => simp [lookupKey]
  | cons hd tl ih =>
    obtain ⟨k2, v2⟩ := hd
    by_cases h : k2 = k
    · simp [lookupKey, setKey, h]
      intro hv
      exact hv.symm
    · simp [lookupKey, setKey, h]
      exact ih

/-! ## OperationSequencer (`ReActCallback._queue_operation` /
`_process_operation_queue`, callback.py lines 82-105)

The asyncio execution of the queue is modelled as a labelled transition
system.  A `PendingOperation` closure is abstracted as an `Op`: an identifier,
a number of internal suspension points (`delay`, modelling the closure's own
awaits / delayed I/O), and whether it raises (`fails`).  One EventStore write
is emitted when a non-failing operation finishes.

Scheduler labels:
* `enqueue op` — `_queue_operation`: appends to `self.operation_queue` and, if
  `not self.processing_queue`, calls `asyncio.create_task(self._process_...)`
  (one more not-yet-started drainer task, counted in `pending`).
* `drainStart` — the event loop starts one created task.  The task body first
  runs `if self.processing_queue or not self.operation_queue: return`, then
  sets `processing_queue = True` and pops the first operation; there is no
  await in between so this whole prefix is a single atomic step.
* `opStep` — the currently awaited operation passes one internal suspension
  point.
* `opFinish` — the awaited operation returns (or raises: the `except` clause
  swallows the exception and the loop continues); without suspension the loop
  either pops the next operation or sets `processing_queue = False`.

Ghost fields `enqueued` (every op ever enqueued, in submission order) and
`done` (every op that finished executing, in execution order) are history
variables; they are never read by the transitions.
-/

structure Op where
  id : Nat
  delay : Nat
  fails : Bool
deriving DecidableEq

structure SeqState where
  queue : List Op
  processing : Bool
  pending : Nat
  running : List (Op × Nat)
  writes : List Nat
  enqueued : List Op
  done : List Op
deriving DecidableEq

inductive SeqLabel where
  | enqueue (op : Op)
  | drainStart
  | opStep
  | opFinish
deriving DecidableEq

def initSeq : SeqState :=
  { queue := [], processing := false, pending := 0, running := [],
    writes := [], enqueued := [], done := [] }

def seqStep (s : SeqState) : SeqLabel → Option SeqState
  | .enqueue op =>
      some { s with queue := s.queue ++ [op],
                    pending := if s.processing then s.pending else s.pending + 1,
                    enqueued := s.enqueued ++ [op] }
  | .drainStart =>
      match s.pending with
      | 0 => none
      | p + 1 =>
        if s.processing then some { s with pending := p }
        else
          match s.queue with
          | [] => some { s with pending := p }
          | op :: rest =>
              some { s with pending := p, processing := true, queue := rest,
                            running := s.running ++ [(op, op.delay)] }
  | .opStep =>
      match s.running with
      | (op, d + 1) :: rest => some { s with running := (op, d) :: rest }
      | _ => none
  | .opFinish =>
      match s.running with
      | (op, 0) :: rest =>
        let writes2 := if op.fails then s.writes else s.writes ++ [op.id]
        let done2 := s.done ++ [op]
        match s.queue with
        | [] => some { s with running := rest, processing := false,
                              writes := writes2, done := done2 }
        | op2 :: q =>
              some { s with running := (op2, op2.delay) :: rest, queue := q,
                            writes := writes2, done := done2 }
      | _ => none

def runSeq : SeqState → List SeqLabel → Option SeqState
  | s, [] => some s
  | s, l :: ls =>
    match seqStep s l with
    | none => none
    | some s2 => runSeq s2 ls

/-- The inductive invariant of the sequencer: the drain flag mirrors the
presence of an operation being awaited, at most one operation is ever being
awaited (mutual exclusion of drainer tasks), every enqueued operation is
either done, currently running, or still queued — in submission order — and
the write log is exactly the ids of the non-failing finished operations. -/
def SeqInv (s : SeqState) : Prop :=
  (s.processing = true ↔ s.running ≠ []) ∧
  s.running.length ≤ 1 ∧
  s.enqueued = s.done ++ s.running.map Prod.fst ++ s.queue ∧
  s.writes = (s.done.filter (fun o => !o.fails)).map Op.id

theorem seqInv_init : SeqInv initSeq := by
  refine ⟨?_, ?_, ?_, ?_⟩ <;> simp [initSeq, SeqInv]

theorem seqInv_step {s s2 : SeqState} {l : SeqLabel}
    (hinv : SeqInv s) (hstep : seqStep s l = some s2) : SeqInv s2 := by
  obtain ⟨h1, h2, h3, h4⟩ := hinv
  cases l with
  | enqueue op =>
    simp only [seqStep, Option.some.injEq] at hstep
    subst hstep
    exact ⟨h1, h2, by simp [h3], h4⟩
  | drainStart =>
    simp only [seqStep] at hstep
    cases hp : s.pending with
    | zero => rw [hp] at hstep; exact absurd hstep (by simp)
    | succ p =>
      rw [hp] at hstep
      cases hproc : s.processing with
      | true =>
        rw [hproc] at hstep
        simp only [if_true, Option.some.injEq] at hstep
        subst hstep
        exact ⟨by simpa using h1.mp hproc, h2, h3, h4⟩
      | false =>
        rw [hproc] at hstep
        simp only [Bool.false_eq_true, if_false] at hstep
        have hrun : s.running = [] := by
          cases hr2 : s.running with
          | nil => rfl
          | cons a b =>
            exfalso
            have := h1.mpr (by rw [hr2]; simp)
            rw [hproc] at this
            exact Bool.false_ne_true this
        cases hq : s.queue with
        | nil =>
          rw [hq] at hstep
          simp only [Option.some.injEq] at hstep
          subst hstep
          exact ⟨by simpa [hproc] using h1, h2, by simpa [hq] using h3, h4⟩
        | cons op rest =>
          rw [hq] at hstep
          simp only [Option.some.injEq] at hstep
          subst hstep
          refine ⟨by simp [hrun], by simp [hrun], ?_, h4⟩
          rw [hq, hrun] at h3
          simp [hrun, h3]
  | opStep =>
    simp only [seqStep] at hstep
    cases hr : s.running with
    | nil => rw [hr] at hstep; exact absurd hstep (by simp)
    | cons hd rest =>
      obtain ⟨op, d⟩ := hd
      cases d with
      | zero => rw [hr] at hstep; exact absurd hstep (by simp)
      | succ d2 =>
        rw [hr] at hstep
        simp only [Option.some.injEq] at hstep
        subst hstep
        rw [hr] at h1 h2 h3
        refine ⟨by simpa using h1, by simpa using h2, ?_, h4⟩
        simpa using h3
  | opFinish =>
    simp only [seqStep] at hstep
    cases hr : s.running with
    | nil => rw [hr] at hstep; exact absurd hstep (by simp)
    | cons hd rest =>
      obtain ⟨op, d⟩ := hd
      cases d with
      | succ d2 => rw [hr] at hstep; exact absurd hstep (by simp)
      | zero =>
        rw [hr] at hstep
        have hrest : rest = [] := by
          rw [hr] at h2
          simpa using h2
        subst hrest
        rw [hr] at h3
        cases hq : s.queue with
        | nil =>
          rw [hq] at hstep
          simp only [Option.some.injEq] at hstep
          subst hstep
          rw [hq] at h3
          refine ⟨by simp, by simp, ?_, ?_⟩
          · simpa using h3
          · cases hf : op.fails <;> simp [hf, List.filter_append, List.filter, h4]
        | cons op2 q =>
          rw [hq] at hstep
          simp only [Option.some.injEq] at hstep
          subst hstep
          rw [hq] at h3
          have hproc : s.processing = true := h1.mpr (by rw [hr]; simp)
          refine ⟨by simp [hproc], by simp, ?_, ?_⟩
          · simpa using h3
          · cases hf : op.fails <;> simp [hf, List.filter_append, List.filter, h4]

theorem seqInv_run {s s2 : SeqState} {ls : List SeqLabel}
    (hrun : runSeq s ls = some s2) (hinv : SeqInv s) : SeqInv s2 := by
  induction ls generalizing s with
  | nil => simp only [runSeq, Option.some.injEq] at hrun; exact hrun ▸ hinv
  | cons l ls ih =>
    simp only [runSeq] at hrun
    cases hst : seqStep s l with
    | none => rw [hst] at hrun; exact absurd hrun (by simp)
    | some s1 =>
      rw [hst] at hrun
      exact ih hrun (seqInv_step hinv hst)

/-- C1: for every turn and every sequence of N ≥ 2 operations enqueued on the
turn's operation queue (`ReActCallback._queue_operation`), under any
interleaving of scheduler steps the operations execute one at a time in
submission (FIFO) order, each awaited to completion (including its internal
suspension points) before the next starts; operations enqueued while the
queue is draining are appended and run after all previously queued ones.
Hence once the sequencer has quiesced (nothing queued, nothing running), the
EventStore writes are observed in exactly submission order, even when an
operation's internal I/O is delayed (arbitrary `delay` fields). -/
theorem sequencer_fifo_order (ls : List SeqLabel) (s : SeqState)
    (hrun : runSeq initSeq ls = some s)
    (hq : s.queue = []) (hr : s.running = [])
    (hok : ∀ op ∈ s.enqueued, op.fails = false) :
    s.writes = s.enqueued.map Op.id := by
  obtain ⟨h1, h2, h3, h4⟩ := seqInv_run hrun seqInv_init
  rw [hq, hr] at h3
  simp only [List.map_nil, List.append_nil] at h3
  have hfilter : s.done.filter (fun o => !o.fails) = s.done :=
    List.filter_eq_self.mpr (fun a ha => by
      have := hok a (by rw [h3]; exact ha)
      simp [this])
  rw [h4, hfilter, h3]

def c1Op1 : Op := { id := 1, delay := 1, fails := false }

def c1Op2 : Op := { id := 2, delay := 0, fails := false }

def c1Op3 : Op := { id := 3, delay := 0, fails := false }

def c1Sched : List SeqLabel :=
  [.enqueue c1Op1, .enqueue c1Op2, .drainStart, .opStep, .opFinish,
   .enqueue c1Op3, .opFinish, .opFinish]

def c1Final : SeqState :=
  { queue := [], processing := false, pending := 1, running := [],
    writes := [1, 2, 3], enqueued := [c1Op1, c1Op2, c1Op3],
    done := [c1Op1, c1Op2, c1Op3] }

/-- Witness for C1: three operations (the first with delayed internal I/O,
the third enqueued while the queue is draining) produce writes `[1, 2, 3]`,
exactly the submission order. -/
theorem sequencer_fifo_order_witness :
    runSeq initSeq c1Sched = some c1Final ∧
      c1Final.writes = c1Final.enqueued.map Op.id :=
  ⟨by decide,
   sequencer_fifo_order c1Sched c1Final (by decide) (by decide) (by decide)
     (by decide)⟩

/-- C9: if any operation dequeued by the sequencer raises while executing
(`fails = true`), the exception is swallowed by the `except` clause inside
`_process_operation_queue` (transition `opFinish` is always enabled, never a
stuck state) and the drain continues: in any quiesced run the write log is
exactly the non-failing operations in submission order — in particular every
operation queued after a failing one still runs — and the sequencer has
returned to idle (`processing_queue = False`). -/
theorem sequencer_failure_isolation (ls : List SeqLabel) (s : SeqState)
    (hrun : runSeq initSeq ls = some s)
    (hq : s.queue = []) (hr : s.running = []) :
    s.writes = (s.enqueued.filter (fun o => !o.fails)).map Op.id ∧
      s.processing = false := by
  obtain ⟨h1, h2, h3, h4⟩ := seqInv_run hrun seqInv_init
  rw [hq, hr] at h3
  simp only [List.map_nil, List.append_nil] at h3
  refine ⟨by rw [h4, h3], ?_⟩
  cases hp : s.processing with
  | false => rfl
  | true => exact absurd (h1.mp hp) (by simp [hr])

def c9Op1 : Op := { id := 1, delay := 0, fails := true }

def c9Op2 : Op := { id := 2, delay := 1, fails := false }

def c9Op3 : Op := { id := 3, delay := 0, fails := true }

def c9Op4 : Op := { id := 4, delay := 0, fails := false }

def c9Sched : List SeqLabel :=
  [.enqueue c9Op1, .drainStart, .enqueue c9Op2, .opFinish, .opStep,
   .enqueue c9Op3, .enqueue c9Op4, .opFinish, .opFinish, .opFinish]

def c9Final : SeqState :=
  { queue := [], processing := false, pending := 0, running := [],
    writes := [2, 4], enqueued := [c9Op1, c9Op2, c9Op3, c9Op4],
    done := [c9Op1, c9Op2, c9Op3, c9Op4] }

/-- Witness for C9: operations 1 and 3 raise; operations 2 and 4 (queued
after them) still run, the write log is `[2, 4]`, and the sequencer is idle. -/
theorem sequencer_failure_isolation_witness :
    runSeq initSeq c9Sched = some c9Final ∧
      c9Final.writes = (c9Final.enqueued.filter (fun o => !o.fails)).map Op.id ∧
      c9Final.processing = false :=
  ⟨by decide,
   sequencer_failure_isolation c9Sched c9Final (by decide) (by decide)
     (by decide)⟩

/-! ## RedisStorage / RedisSessionManager (redis.py)

Sessions, chats and messages live in Redis hashes keyed by
`session:{token}`, `session:{token}:chat:{chat_id}` and
`session:{token}:chat:{chat_id}:message:{message_id}`; the model keeps them
in three association lists keyed by the same components.  ISO timestamps are
abstracted as naturals, `datetime.now()` is the explicit `now` argument, and
`uuid.uuid4()` is the explicit `fresh` argument.  Metadata is carried in its
JSON-serialised form (`Option String`; `none` covers Python-falsy metadata,
which is stored as `""` and contributes 0 to the message size). -/

structure SessionRec where
  created_at : Nat
  last_accessed : Nat
  chat_count : Nat
  memory_usage_bytes : Nat
deriving DecidableEq

structure ChatRec where
  name : String
  created_at : Nat
  updated_at : Nat
  message_count : Nat
  latest_message_content : Option String
  latest_message_timestamp : Option Nat
deriving DecidableEq

structure MsgRec where
  id : String
  content : String
  role : String
  timestamp : Nat
  metadata : Option String
deriving DecidableEq

structure Store where
  sessions : List (String × SessionRec)
  chats : List ((String × String) × ChatRec)
  messages : List ((String × String × String) × MsgRec)
deriving DecidableEq

def MAX_MEMORY_PER_SESSION_MB : Nat := 50

def MAX_MESSAGES_PER_CHAT : Nat := 1000

def maxMemoryBytes : Nat := MAX_MEMORY_PER_SESSION_MB * 1024 * 1024

theorem setKey_setKey {κ α : Type} [DecidableEq κ] (k : κ) (v1 v2 : α) :
    ∀ l : List (κ × α), setKey k v2 (setKey k v1 l) = setKey k v2 l := by
  intro l
  induction l with
  | nil => simp [setKey]
  | cons hd tl ih =>
    obtain ⟨k2, v3⟩ := hd
    by_cases h : k2 = k <;> simp [setKey, h, ih]

/-- Number of entries stored under key `k` (Redis keys are unique; the model
keeps them unique via `setKey`, which this counts). -/
def keyCount {κ α : Type} [DecidableEq κ] (k : κ) (l : List (κ × α)) : Nat :=
  l.countP (fun p => decide (p.1 = k))

theorem lookupKey_eq_none_of_keyCount_zero {κ α : Type} [DecidableEq κ]
    (k : κ) : ∀ l : List (κ × α), keyCount k l = 0 → lookupKey k l = none := by
  intro l
  induction l with
  | nil => intro _; rfl
  | cons hd tl ih =>
    obtain ⟨k2, v⟩ := hd
    intro h
    by_cases hk : k2 = k
    · simp [keyCount, List.countP_cons, hk] at h
    · simp only [keyCount, List.countP_cons, hk, decide_eq_true_eq] at h
      simp only [lookupKey, hk, if_false]
      exact ih (by simpa [keyCount] using h)

theorem keyCount_setKey_of_zero {κ α : Type} [DecidableEq κ] (k : κ) (v : α) :
    ∀ l : List (κ × α), keyCount k l = 0 → keyCount k (setKey k v l) = 1 := by
  intro l
  induction l with
  | nil => intro _; simp [keyCount, setKey, List.countP_cons]
  | cons hd tl ih =>
    obtain ⟨k2, v2⟩ := hd
    intro h
    by_cases hk : k2 = k
    · simp [keyCount, List.countP_cons, hk] at h
    · simp only [keyCount, List.countP_cons, hk, decide_eq_true_eq] at h ⊢
      simp only [setKey, hk, if_false, List.countP_cons, decide_eq_true_eq, hk]
      have := ih (by simpa [keyCount] using h)
      simpa [keyCount, hk] using this

/-- Model of `RedisSessionManager.get_session`: returns the stored hash and, as a side
effect of a successful lookup, refreshes `last_accessed` (and the TTL, not
modelled).  The returned record is the one read before the refresh, exactly
as `hgetall` runs before `hset`. -/
def getSession (st : Store) (now : Nat) (token : String) :
    Option SessionRec × Store :=
  match lookupKey token st.sessions with
  | none => (none, st)
  | some s =>
      (some s,
       { st with sessions := setKey token { s with last_accessed := now } st.sessions })

/-- Model of `RedisSessionManager.check_memory_limit`: `False` when the session is
missing, otherwise whether `current_usage + additional_bytes` stays within
the 50 MB cap. -/
def checkMemoryLimit (st : Store) (now : Nat) (token : String)
    (additional : Nat) : Bool × Store :=
  match getSession st now token with
  | (none, st2) => (false, st2)
  | (some s, st2) => (s.memory_usage_bytes + additional ≤ maxMemoryBytes, st2)

/-- Model of `RedisSessionManager.update_memory_usage` (`hincrby` on
`memory_usage_bytes`).  All modelled callers run it after a successful
memory check, so the session hash exists. -/
def updateMemoryUsage (st : Store) (token : String) (delta : Nat) : Store :=
  match lookupKey token st.sessions with
  | none => st
  | some s =>
      { st with sessions :=
          setKey token { s with memory_usage_bytes := s.memory_usage_bytes + delta } st.sessions }

/-- Model of `RedisStorage.get_chat` (pure `hgetall`, no TTL refresh). -/
def getChat (st : Store) (token chat_id : String) : Option ChatRec :=
  lookupKey (token, chat_id) st.chats

/-- The `content[:100] + "..." if len(content) > 100 else content` preview. -/
def previewContent (content : String) : String :=
  if content.length > 100 then content.take 100 ++ "..." else content

/-- Message size: UTF-8 byte length of the content plus the length of the
JSON-serialised metadata (`len(content.encode('utf-8')) +
(len(json.dumps(metadata)) if metadata else 0)`). -/
def msgSize (content : String) (metadata : Option String) : Nat :=
  content.utf8ByteSize + (match metadata with | some m => m.length | none => 0)

/-- Model of `RedisStorage.add_message`.  Returns the store as left by the call (also
on failure, matching a raised `ValueError`) and either the stored message or
the error message of the `ValueError`. -/
def addMessage (st : Store) (now : Nat) (token chat_id content role : String)
    (metadata : Option String) (message_id : Option String)
    (timestamp : Option Nat) (fresh : String) : Store × Except String MsgRec :=
  let size := msgSize content metadata
  match checkMemoryLimit st now token size with
  | (false, st1) => (st1, .error "Session memory limit exceeded")
  | (true, st1) =>
    match getChat st1 token chat_id with
    | none => (st1, .error "Chat not found")
    | some chat =>
      if chat.message_count ≥ MAX_MESSAGES_PER_CHAT then
        (st1, .error "Maximum messages per chat exceeded")
      else
        let mid := message_id.getD fresh
        let ts := timestamp.getD now
        let msg : MsgRec :=
          { id := mid, content := content, role := role, timestamp := ts,
            metadata := metadata }
        let chat2 :=
          { chat with
              latest_message_content := some (previewContent content),
              latest_message_timestamp := some ts,
              updated_at := ts,
              message_count := chat.message_count + 1 }
        let st2 :=
          { st1 with messages := setKey (token, chat_id, mid) msg st1.messages }
        let st3 := { st2 with chats := setKey (token, chat_id) chat2 st2.chats }
        (updateMemoryUsage st3 token size, .ok msg)

/-- Model of `RedisStorage.update_message`.  The chat-summary `hset` would create a
stray partial hash when the chat key is absent; no modelled scenario reaches
that, so the summary update is a no-op for a missing chat. -/
def updateMessage (st : Store) (now : Nat) (token chat_id mid content : String)
    (metadata : Option String) (timestamp : Option Nat) :
    Store × Except String MsgRec :=
  match lookupKey (token, chat_id, mid) st.messages with
  | none => (st, .error "Message not found")
  | some existing =>
    let ts := timestamp.getD now
    let msg := { existing with content := content, metadata := metadata, timestamp := ts }
    let st2 :=
      { st with messages := setKey (token, chat_id, mid) msg st.messages }
    let st3 :=
      match lookupKey (token, chat_id) st2.chats with
      | none => st2
      | some chat =>
          let chat2 :=
            { chat with
                latest_message_content := some (previewContent content),
                latest_message_timestamp := some ts,
                updated_at := ts }
          { st2 with chats := setKey (token, chat_id) chat2 st2.chats }
    (st3, .ok msg)

/-- Model of `RedisStorage.upsert_message`: update when the id already holds a
message — passing the *stored* timestamp, never the caller-supplied one —
otherwise create via `add_message` with the caller's arguments. -/
def upsertMessage (st : Store) (now : Nat) (token chat_id content role : String)
    (metadata : Option String) (message_id : Option String)
    (timestamp : Option Nat) (fresh : String) : Store × Except String MsgRec :=
  let mid := message_id.getD fresh
  match lookupKey (token, chat_id, mid) st.messages with
  | some existing =>
      updateMessage st now token chat_id mid content metadata (some existing.timestamp)
  | none =>
      addMessage st now token chat_id content role metadata (some mid) timestamp fresh

/-- Evaluation of `add_message`'s success path: with the session present,
the memory check passing and the chat present below the message cap, the
call stores the message record, bumps the chat summary and count, and adds
the message size to the session's memory usage. -/
theorem addMessage_success_eq (st : Store) (now : Nat)
    (token chat_id content role : String) (metadata : Option String)
    (message_id : Option String) (tsArg : Option Nat) (fresh : String)
    (sess : SessionRec) (chat : ChatRec)
    (hs : lookupKey token st.sessions = some sess)
    (hmem : sess.memory_usage_bytes + msgSize content metadata ≤ maxMemoryBytes)
    (hc : lookupKey (token, chat_id) st.chats = some chat)
    (hcount : chat.message_count < MAX_MESSAGES_PER_CHAT) :
    addMessage st now token chat_id content role metadata message_id tsArg fresh =
      ({ sessions :=
           setKey token
             { sess with
                 last_accessed := now,
                 memory_usage_bytes := sess.memory_usage_bytes + msgSize content metadata }
             st.sessions,
         chats :=
           setKey (token, chat_id)
             { chat with
                 latest_message_content := some (previewContent content),
                 latest_message_timestamp := some (tsArg.getD now),
                 updated_at := tsArg.getD now,
                 message_count := chat.message_count + 1 }
             st.chats,
         messages :=
           setKey (token, chat_id, message_id.getD fresh)
             { id := message_id.getD fresh, content := content, role := role,
               timestamp := tsArg.getD now, metadata := metadata }
             st.messages },
       .ok { id := message_id.getD fresh, content := content, role := role,
             timestamp := tsArg.getD now, metadata := metadata }) := by
  have hdec : decide (sess.memory_usage_bytes + msgSize content metadata ≤ maxMemoryBytes) = true :=
    decide_eq_true hmem
  simp only [addMessage, checkMemoryLimit, getSession, hs, hdec, getChat, hc,
    updateMemoryUsage, lookupKey_setKey_self, setKey_setKey,
    if_neg (Nat.not_le.mpr hcount), Nat.not_lt.mpr, ge_iff_le]

/-- C10: when `upsert_message` is called with `message_id` omitted (`None`),
a fresh UUID is generated; as long as the generated id is fresh (the defining
property of `uuid.uuid4()`, here the hypothesis that the store holds no
message under it), the existence check finds nothing and the call is exactly
the create path `add_message` — the update path is unreachable. -/
theorem upsert_without_id_creates (st : Store) (now : Nat)
    (token chat_id content role : String) (metadata : Option String)
    (tsArg : Option Nat) (fresh : String)
    (hfresh : lookupKey (token, chat_id, fresh) st.messages = none) :
    upsertMessage st now token chat_id content role metadata none tsArg fresh =
      addMessage st now token chat_id content role metadata (some fresh) tsArg fresh := by
  simp only [upsertMessage, Option.getD_none, hfresh]

def c10Store : Store :=
  { sessions := [("t", { created_at := 0, last_accessed := 0, chat_count := 1,
                         memory_usage_bytes := 0 })],
    chats := [(("t", "c"), { name := "Chat 1", created_at := 0, updated_at := 0,
                             message_count := 0,
                             latest_message_content := none,
                             latest_message_timestamp := none })],
    messages := [] }

/-- Witness for C10 at a concrete store with one session and one empty chat. -/
theorem upsert_without_id_creates_witness :
    upsertMessage c10Store 5 "t" "c" "hi" "agent" none none none "f1" =
      addMessage c10Store 5 "t" "c" "hi" "agent" none (some "f1") none "f1" :=
  upsert_without_id_creates c10Store 5 "t" "c" "hi" "agent" none none "f1"
    (by decide)

/-- C4: with the session present, `add_message` fails with the typed error
"Session memory limit exceeded" whenever the session's `memory_usage_bytes`
plus the new message's size (UTF-8 content bytes plus serialised-metadata
length) would exceed the 50 MB cap, and — when the memory check passes and
the chat exists — fails with "Maximum messages per chat exceeded" when the
room's `message_count` is at the 1000-message cap.  In either failure case
nothing is written: the resulting store differs from the original only in
the session's `last_accessed` refresh performed by the lookup, so all stored
events, chats, counters and summary fields are unmodified. -/
theorem add_message_quota_errors (st : Store) (now : Nat)
    (token chat_id content role : String) (metadata : Option String)
    (message_id : Option String) (tsArg : Option Nat) (fresh : String)
    (sess : SessionRec)
    (hs : lookupKey token st.sessions = some sess) :
    (sess.memory_usage_bytes + msgSize content metadata > maxMemoryBytes →
      addMessage st now token chat_id content role metadata message_id tsArg fresh =
        ({ st with sessions := setKey token { sess with last_accessed := now } st.sessions },
         .error "Session memory limit exceeded")) ∧
    (∀ chat : ChatRec,
      sess.memory_usage_bytes + msgSize content metadata ≤ maxMemoryBytes →
      lookupKey (token, chat_id) st.chats = some chat →
      chat.message_count ≥ MAX_MESSAGES_PER_CHAT →
      addMessage st now token chat_id content role metadata message_id tsArg fresh =
        ({ st with sessions := setKey token { sess with last_accessed := now } st.sessions },
         .error "Maximum messages per chat exceeded")) := by
  constructor
  · intro hover
    have hdec : decide (sess.memory_usage_bytes + msgSize content metadata ≤ maxMemoryBytes) = false :=
      decide_eq_false (Nat.not_le.mpr hover)
    simp only [addMessage, checkMemoryLimit, getSession, hs, hdec]
  · intro chat hmem hc hfull
    have hdec : decide (sess.memory_usage_bytes + msgSize content metadata ≤ maxMemoryBytes) = true :=
      decide_eq_true hmem
    simp only [addMessage, checkMemoryLimit, getSession, hs, hdec, getChat, hc,
      ge_iff_le, if_pos hfull]

def c4SessFull : SessionRec :=
  { created_at := 0, last_accessed := 0, chat_count := 1,
    memory_usage_bytes := maxMemoryBytes }

def c4SessZero : SessionRec :=
  { created_at := 0, last_accessed := 0, chat_count := 1,
    memory_usage_bytes := 0 }

def c4ChatEmpty : ChatRec :=
  { name := "Chat 1", created_at := 0, updated_at := 0, message_count := 0,
    latest_message_content := none, latest_message_timestamp := none }

def c4ChatAtCap : ChatRec :=
  { name := "Chat 1", created_at := 0, updated_at := 0, message_count := 1000,
    latest_message_content := none, latest_message_timestamp := none }

def c4StoreFull : Store :=
  { sessions := [("t", c4SessFull)],
    chats := [(("t", "c"), c4ChatEmpty)],
    messages := [] }

def c4StoreCount : Store :=
  { sessions := [("t", c4SessZero)],
    chats := [(("t", "c"), c4ChatAtCap)],
    messages := [] }

/-- Witness for C4: a session already at the 50 MB cap rejects a 2-byte
message with the memory error; a chat at 1000 messages rejects with the
count error; both leave the stored chats and messages untouched. -/
theorem add_message_quota_errors_witness :
    ((addMessage c4StoreFull 7 "t" "c" "hi" "user" none none none "f").2 =
        .error "Session memory limit exceeded" ∧
      (addMessage c4StoreFull 7 "t" "c" "hi" "user" none none none "f").1.chats =
        c4StoreFull.chats ∧
      (addMessage c4StoreFull 7 "t" "c" "hi" "user" none none none "f").1.messages =
        c4StoreFull.messages) ∧
    ((addMessage c4StoreCount 7 "t" "c" "hi" "user" none none none "f").2 =
        .error "Maximum messages per chat exceeded" ∧
      (addMessage c4StoreCount 7 "t" "c" "hi" "user" none none none "f").1.chats =
        c4StoreCount.chats ∧
      (addMessage c4StoreCount 7 "t" "c" "hi" "user" none none none "f").1.messages =
        c4StoreCount.messages) := by
  have h1 := (add_message_quota_errors c4StoreFull 7 "t" "c" "hi" "user" none
    none none "f" c4SessFull (by decide)).1 (by decide)
  have h2 := (add_message_quota_errors c4StoreCount 7 "t" "c" "hi" "user" none
    none none "f" c4SessZero (by decide)).2 c4ChatAtCap (by decide) (by decide)
    (by decide)
  rw [h1, h2]
  refine ⟨⟨rfl, ?_, rfl⟩, rfl, ?_, rfl⟩ <;> decide

def c2Store : Store :=
  { sessions := [("t", { created_at := 0, last_accessed := 0, chat_count := 1,
                         memory_usage_bytes := 0 })],
    chats := [(("t", "c"), { name := "Chat 1", created_at := 0, updated_at := 0,
                             message_count := 0,
                             latest_message_content := none,
                             latest_message_timestamp := none })],
    messages := [] }

def c2Call1 : Store × Except String MsgRec :=
  upsertMessage c2Store 10 "t" "c" "hello" "agent" none (some "m") none "f1"

def c2Call2 : Store × Except String MsgRec :=
  upsertMessage c2Call1.1 20 "t" "c" "hello" "agent" none (some "m") (some 20) "f2"

/-- C2 counterexample: upserting the same id with the same content twice
(first call at clock 10, second at clock 20 and even with an explicit later
caller timestamp 20) leaves the store byte-for-byte unchanged.  The stored
event keeps its single `timestamp` field at 10 — the message hash holds no
separate updated-at field, and nothing in the store advances — so the claim
that "updated_at advances" on the second upsert is false. -/
theorem upsert_no_updated_at_counterexample :
    c2Call2.1 = c2Call1.1 ∧
      lookupKey ("t", "c", "m") c2Call2.1.messages =
        some { id := "m", content := "hello", role := "agent", timestamp := 10,
               metadata := none } := by
  decide

/-- C2 (amended): for every room and message id that already exists, upsert
takes the update path with the *stored* original timestamp, ignoring the
caller-supplied one.  Calling upsert twice with the same id and content
yields exactly one stored event whose single `timestamp` (its created-at) is
the first call's; the store keeps no separate per-event updated-at, and the
second call — at any later clock and with any caller timestamp — returns the
same message and leaves the entire store unchanged (nothing advances). -/
theorem upsert_idempotent_preserves_timestamp (st : Store) (now1 now2 : Nat)
    (token chat_id content role : String) (metadata : Option String)
    (mid : String) (tsArg tsArg2 : Option Nat) (fresh fresh2 : String)
    (sess : SessionRec) (chat : ChatRec)
    (hs : lookupKey token st.sessions = some sess)
    (hmem : sess.memory_usage_bytes + msgSize content metadata ≤ maxMemoryBytes)
    (hc : lookupKey (token, chat_id) st.chats = some chat)
    (hcount : chat.message_count < MAX_MESSAGES_PER_CHAT)
    (habsent : keyCount (token, chat_id, mid) st.messages = 0) :
    (upsertMessage st now1 token chat_id content role metadata (some mid) tsArg fresh).2 =
      .ok { id := mid, content := content, role := role,
            timestamp := tsArg.getD now1, metadata := metadata } ∧
    keyCount (token, chat_id, mid)
        (upsertMessage st now1 token chat_id content role metadata (some mid) tsArg fresh).1.messages = 1 ∧
    lookupKey (token, chat_id, mid)
        (upsertMessage st now1 token chat_id content role metadata (some mid) tsArg fresh).1.messages =
      some { id := mid, content := content, role := role,
             timestamp := tsArg.getD now1, metadata := metadata } ∧
    upsertMessage
        (upsertMessage st now1 token chat_id content role metadata (some mid) tsArg fresh).1
        now2 token chat_id content role metadata (some mid) tsArg2 fresh2 =
      upsertMessage st now1 token chat_id content role metadata (some mid) tsArg fresh := by
  have hnone : lookupKey (token, chat_id, mid) st.messages = none :=
    lookupKey_eq_none_of_keyCount_zero _ _ habsent
  have hup1 : upsertMessage st now1 token chat_id content role metadata (some mid) tsArg fresh =
      addMessage st now1 token chat_id content role metadata (some mid) tsArg fresh := by
    simp only [upsertMessage, Option.getD_some, hnone]
  rw [hup1, addMessage_success_eq st now1 token chat_id content role metadata
    (some mid) tsArg fresh sess chat hs hmem hc hcount]
  refine ⟨rfl, keyCount_setKey_of_zero _ _ _ habsent, lookupKey_setKey_self _ _ _, ?_⟩
  simp only [upsertMessage, updateMessage, Option.getD_some,
    lookupKey_setKey_self, setKey_setKey]

def c2wStore : Store := c2Store

/-- Witness for the amended C2 at a concrete store, id "m", content "hello",
first call at clock 10 and second at clock 20 with caller timestamp 99. -/
theorem upsert_idempotent_preserves_timestamp_witness :
    (upsertMessage c2wStore 10 "t" "c" "hello" "agent" none (some "m") none "f1").2 =
      .ok { id := "m", content := "hello", role := "agent", timestamp := 10,
            metadata := none } ∧
    keyCount ("t", "c", "m")
        (upsertMessage c2wStore 10 "t" "c" "hello" "agent" none (some "m") none "f1").1.messages = 1 ∧
    lookupKey ("t", "c", "m")
        (upsertMessage c2wStore 10 "t" "c" "hello" "agent" none (some "m") none "f1").1.messages =
      some { id := "m", content := "hello", role := "agent", timestamp := 10,
             metadata := none } ∧
    upsertMessage
        (upsertMessage c2wStore 10 "t" "c" "hello" "agent" none (some "m") none "f1").1
        20 "t" "c" "hello" "agent" none (some "m") (some 99) "f2" =
      upsertMessage c2wStore 10 "t" "c" "hello" "agent" none (some "m") none "f1" := by
  have h := upsert_idempotent_preserves_timestamp c2wStore 10 20 "t" "c" "hello"
    "agent" none "m" none (some 99) "f1" "f2"
    { created_at := 0, last_accessed := 0, chat_count := 1, memory_usage_bytes := 0 }
    { name := "Chat 1", created_at := 0, updated_at := 0, message_count := 0,
      latest_message_content := none, latest_message_timestamp := none }
    (by decide) (by decide) (by decide) (by decide) (by decide)
  simpa using h

/-! ## ChatService.update_reasoning_message (chat_service.py lines 449-494)

The Mongo-backed `ChatEvent` document restricted to the fields the update
touches.  `event.content` is `str` (default `""`), `new_content` is
`Optional[str]`; Python truthiness of a string means "not `None` and not
empty".  The repository lookup, `event.save()` and the broadcast are
externals; the function is modelled as the pure transformation of the
fetched event. -/

inductive EvType where
  | message
  | tool
  | reasoning
  | error
deriving DecidableEq

structure ReasoningPayloadRec where
  trajectory : List String
  status : String
deriving DecidableEq

structure REvent where
  type : EvType
  content : String
  payload : Option ReasoningPayloadRec
  updated_at : Nat
deriving DecidableEq

/-- Model of `ChatService.update_reasoning_message` on the fetched event (`none` when
the lookup failed or the event is not a reasoning event). -/
def updateReasoningMessage (ev : Option REvent) (new_content : Option String)
    (status : Option String) (now : Nat) : Option REvent :=
  match ev with
  | none => none
  | some e =>
    if e.type ≠ EvType.reasoning then none
    else
      let payload0 := e.payload.getD { trajectory := [], status := "thinking" }
      let payload1 :=
        if new_content.getD "" ≠ "" ∧ e.content ≠ "" then
          { payload0 with trajectory := payload0.trajectory ++ [e.content] }
        else payload0
      let payload2 :=
        match status with
        | some st => { payload1 with status := st }
        | none => payload1
      let content2 :=
        match new_content with
        | some s => s
        | none => e.content
      some { e with content := content2, payload := some payload2, updated_at := now }

/-- C3: starting from a freshly created reasoning event (empty headline,
empty trajectory — `begin_reasoning`'s initial state), updating the headline
with non-empty contents "A" then "B" then "C" appends the previous headline
to the trajectory before replacing it each time (nothing is appended on the
first update, whose previous headline is empty), so the final event's
trajectory is `[A, B]` and its content is `C`. -/
theorem reasoning_trajectory_accumulation (e0 : REvent) (A B C : String)
    (s1 s2 s3 : Option String) (n1 n2 n3 : Nat) (pstatus : String)
    (htype : e0.type = EvType.reasoning) (hcont : e0.content = "")
    (hpayload : e0.payload = none ∨ e0.payload = some { trajectory := [], status := pstatus })
    (hA : A ≠ "") (hB : B ≠ "") (hC : C ≠ "") :
    ∃ e3 : REvent,
      updateReasoningMessage
          (updateReasoningMessage
            (updateReasoningMessage (some e0) (some A) s1 n1)
            (some B) s2 n2)
          (some C) s3 n3 = some e3 ∧
        e3.content = C ∧
        e3.payload.map ReasoningPayloadRec.trajectory = some [A, B] := by
  cases hpayload with
  | inl hp =>
    cases s1 <;> cases s2 <;> cases s3 <;>
      simp [updateReasoningMessage, htype, hcont, hp, hA, hB, hC]
  | inr hp =>
    cases s1 <;> cases s2 <;> cases s3 <;>
      simp [updateReasoningMessage, htype, hcont, hp, hA, hB, hC]

/-- Witness for C3: the concrete initial reasoning event with empty content
and no payload, updated with "A", "B", "C". -/
theorem reasoning_trajectory_accumulation_witness :
    ∃ e3 : REvent,
      updateReasoningMessage
          (updateReasoningMessage
            (updateReasoningMessage
              (some { type := EvType.reasoning, content := "", payload := none,
                      updated_at := 0 })
              (some "A") none 1)
            (some "B") none 2)
          (some "C") none 3 = some e3 ∧
        e3.content = "C" ∧
        e3.payload.map ReasoningPayloadRec.trajectory = some ["A", "B"] :=
  reasoning_trajectory_accumulation
    { type := EvType.reasoning, content := "", payload := none, updated_at := 0 }
    "A" "B" "C" none none none 1 2 3 "thinking" (by decide) (by decide)
    (Or.inl rfl) (by decide) (by decide) (by decide)

/-! ## ChatService.add_tool_call_to_event (chat_service.py lines 587-645)

Tool events as fetched by `get_events_for_chat(..., type=TOOL, limit=5)`
(most recent first).  `input_payload` dictionaries are abstracted as
association lists of strings. -/

inductive TStat where
  | started
  | in_progress
  | completed
  | error
deriving DecidableEq

structure ToolExec where
  tool_name : String
  input_payload : List (String × String)
  output_payload : Option (List (String × String))
  status : TStat
  started_at : Nat
  completed_at : Option Nat
deriving DecidableEq

structure ToolPayloadRec where
  status : TStat
  tool_calls : List ToolExec
deriving DecidableEq

structure ToolEvent where
  content : String
  payload : Option ToolPayloadRec
  updated_at : Nat
deriving DecidableEq

/-- Model of `get_tool_display_name` (chat_service.py lines 27-36). -/
def getToolDisplayName (tool_name : String) : String :=
  if tool_name = "scrape_website" then "Super Web Search"
  else if tool_name = "search_web" then "Web Search"
  else if tool_name = "query_sql_db" then "SQL Query"
  else if tool_name = "query_mongo_db" then "Debug Log Query"
  else if tool_name = "finish" then "Complete"
  else tool_name

/-- The scan for the most recent fetched event whose payload holds a tool
call with the given name (`if event.payload and event.payload.tool_calls`,
then the inner name match). -/
def findTargetEvent : List ToolEvent → String → Option (ToolEvent × ToolPayloadRec)
  | [], _ => none
  | e :: rest, tn =>
    match e.payload with
    | some p =>
        if p.tool_calls ≠ [] ∧ p.tool_calls.any (fun tc => tc.tool_name = tn) then
          some (e, p)
        else findTargetEvent rest tn
    | none => findTargetEvent rest tn

/-- Model of `ChatService.add_tool_call_to_event` as the transformation of the target
event: when a recent event for the same tool exists, a fresh `ToolExecution`
with status `started` is appended to its `tool_calls`, the payload status
becomes `in_progress` and the content is refreshed; when none exists the
function only prints "Creating new trajectory" and returns `None` — no event
is created. -/
def addToolCallToEvent (events : List ToolEvent) (tool_name : String)
    (input : List (String × String)) (now : Nat) : Option ToolEvent :=
  match findTargetEvent events tool_name with
  | some (e, p) =>
    let texec : ToolExec :=
      { tool_name := tool_name, input_payload := input, output_payload := none,
        status := .started, started_at := now, completed_at := none }
    some { e with
             payload := some { p with tool_calls := p.tool_calls ++ [texec],
                                      status := .in_progress },
             updated_at := now,
             content := getToolDisplayName tool_name }
  | none => none

def c7OldExec : ToolExec :=
  { tool_name := "search_web", input_payload := [("query", "p")],
    output_payload := none, status := .completed, started_at := 1,
    completed_at := some 2 }

def c7Event : ToolEvent :=
  { content := "Web Search",
    payload := some { status := .completed, tool_calls := [c7OldExec] },
    updated_at := 2 }

def c7NewExec : ToolExec :=
  { tool_name := "search_web", input_payload := [("query", "q")],
    output_payload := none, status := .started, started_at := 5,
    completed_at := none }

/-- C7, failing branch: with no recent tool event containing a call of the
given tool, `add_tool_call_to_event` creates nothing and returns `None` —
although its docstring says "or creates a new event if none exists" and its
log line says "Creating new trajectory".  The appending branch, by contrast,
behaves as claimed: an existing event for the same tool gains one more
`started` execution appended to its `tool_calls`, with the payload marked
`in_progress`. -/
theorem add_tool_call_no_event_created :
    addToolCallToEvent [] "search_web" [("query", "q")] 5 = none ∧
      addToolCallToEvent [c7Event] "search_web" [("query", "q")] 5 =
        some { content := "Web Search",
               payload := some { status := .in_progress,
                                 tool_calls := [c7OldExec, c7NewExec] },
               updated_at := 5 } := by
  decide

/-! ## WebSocketRepository (websocket_repository.py)

`active_connections : Dict[str, List[WebSocket]]` is an association list
from chat id to the list of joined connections; connections are abstracted
as naturals and a failing `send_text` as a predicate `fails` on the
connection.  `broadcast_to_chat` copies the member list
(`self.active_connections[chat_id][:]`), iterates sends over the copy
collecting `disconnected_sockets`, then calls `disconnect` on each. -/

abbrev WSRegistry := List (String × List Nat)

def removeKey {κ α : Type} [DecidableEq κ] (k : κ) (l : List (κ × α)) :
    List (κ × α) :=
  l.filter (fun p => p.1 ≠ k)

theorem lookupKey_removeKey {κ α : Type} [DecidableEq κ] (k : κ) :
    ∀ l : List (κ × α), lookupKey k (removeKey k l) = none := by
  intro l
  induction l with
  | nil => rfl
  | cons hd tl ih =>
    obtain ⟨k2, v⟩ := hd
    by_cases h : k2 = k <;> simp [removeKey, lookupKey, h] at ih ⊢ <;>
      simpa [removeKey] using ih

/-- Model of `WebSocketRepository.connect`. -/
def wsConnect (reg : WSRegistry) (cid : String) (sock : Nat) : WSRegistry :=
  match lookupKey cid reg with
  | none => setKey cid [sock] reg
  | some conns => setKey cid (conns ++ [sock]) reg

/-- Model of `WebSocketRepository.disconnect`: remove the socket from the room's list
if present (`list.remove` drops the first occurrence), dropping the room key
entirely when the list empties; a no-op for an unknown room or socket. -/
def wsDisconnect (reg : WSRegistry) (cid : String) (sock : Nat) : WSRegistry :=
  match lookupKey cid reg with
  | none => reg
  | some conns =>
    if sock ∈ conns then
      let conns2 := conns.erase sock
      if conns2 = [] then removeKey cid reg else setKey cid conns2 reg
    else reg

/-- Model of `WebSocketRepository.broadcast_to_chat`: when the room has members, send
to every connection of a snapshot of the member list, collecting the
connections whose send raised, then disconnect those; otherwise only log.
Returns the new registry and the connections successfully delivered to. -/
def wsBroadcast (fails : Nat → Bool) (reg : WSRegistry) (cid : String) :
    WSRegistry × List Nat :=
  match lookupKey cid reg with
  | some conns =>
    if conns = [] then (reg, [])
    else
      let snapshot := conns
      let acc := snapshot.foldl
        (fun (acc : List Nat × List Nat) c =>
          if fails c then (acc.1, acc.2 ++ [c]) else (acc.1 ++ [c], acc.2))
        ([], [])
      (acc.2.foldl (fun r s => wsDisconnect r cid s) reg, acc.1)
  | none => (reg, [])

theorem sendLoop_eq (fails : Nat → Bool) :
    ∀ (l d e : List Nat),
      l.foldl
        (fun (acc : List Nat × List Nat) c =>
          if fails c then (acc.1, acc.2 ++ [c]) else (acc.1 ++ [c], acc.2))
        (d, e) =
      (d ++ l.filter (fun c => !(fails c)), e ++ l.filter fails) := by
  intro l
  induction l with
  | nil => intro d e; simp
  | cons c cs ih =>
    intro d e
    cases hf : fails c <;> simp [List.foldl_cons, hf, ih, List.filter_cons]

/-- The effect of one `disconnect` on one room's member list. -/
def roomDrop : Option (List Nat) → Nat → Option (List Nat)
  | none, _ => none
  | some conns, s =>
    if s ∈ conns then
      (if conns.erase s = [] then none else some (conns.erase s))
    else some conns

def optList : Option (List Nat) → List Nat
  | none => []
  | some l => l

theorem lookupKey_wsDisconnect (reg : WSRegistry) (cid : String) (s : Nat) :
    lookupKey cid (wsDisconnect reg cid s) = roomDrop (lookupKey cid reg) s := by
  unfold wsDisconnect
  cases hc : lookupKey cid reg with
  | none => simp [roomDrop, hc]
  | some conns =>
    by_cases hmem : s ∈ conns
    · by_cases hemp : conns.erase s = []
      · simp [roomDrop, hmem, hemp, lookupKey_removeKey]
      · simp [roomDrop, hmem, hemp, lookupKey_setKey_self]
    · simp [roomDrop, hmem, hc]

theorem lookupKey_foldl_wsDisconnect (cid : String) :
    ∀ (ys : List Nat) (reg : WSRegistry),
      lookupKey cid (ys.foldl (fun r s => wsDisconnect r cid s) reg) =
        ys.foldl roomDrop (lookupKey cid reg) := by
  intro ys
  induction ys with
  | nil => intro reg; rfl
  | cons y ys ih =>
    intro reg
    simp only [List.foldl_cons, ih, lookupKey_wsDisconnect]

theorem roomDrop_foldl_none : ∀ ys : List Nat, ys.foldl roomDrop none = none := by
  intro ys
  induction ys with
  | nil => rfl
  | cons y ys ih => simpa [roomDrop] using ih

theorem roomDrop_foldl_some_nil :
    ∀ ys : List Nat, ys.foldl roomDrop (some []) = some [] := by
  intro ys
  induction ys with
  | nil => rfl
  | cons y ys ih => simpa [roomDrop] using ih

theorem roomDrop_foldl_cons_ne :
    ∀ (ys : List Nat) (x : Nat) (xs : List Nat), (∀ y ∈ ys, y ≠ x) →
      ys.foldl roomDrop (some (x :: xs)) =
        some (x :: optList (ys.foldl roomDrop (some xs))) := by
  intro ys
  induction ys with
  | nil => intro x xs _; rfl
  | cons y ys ih =>
    intro x xs hne
    have hyx : y ≠ x := hne y (by simp)
    have hxy : ¬ x = y := fun h => hyx h.symm
    have hrest : ∀ z ∈ ys, z ≠ x := fun z hz => hne z (by simp [hz])
    by_cases hmem : y ∈ xs
    · have h1 : roomDrop (some (x :: xs)) y = some (x :: xs.erase y) := by
        simp [roomDrop, List.erase_cons, hxy, hmem]
      by_cases hemp : xs.erase y = []
      · have h2 : roomDrop (some xs) y = none := by simp [roomDrop, hmem, hemp]
        rw [List.foldl_cons, List.foldl_cons, h1, h2, roomDrop_foldl_none, hemp,
          ih x [] hrest, roomDrop_foldl_some_nil]
        rfl
      · have h2 : roomDrop (some xs) y = some (xs.erase y) := by
          simp [roomDrop, hmem, hemp]
        rw [List.foldl_cons, List.foldl_cons, h1, h2, ih x (xs.erase y) hrest]
    · have hmem2 : y ∉ x :: xs := by simp [hyx, hmem]
      have h1 : roomDrop (some (x :: xs)) y = some (x :: xs) := by
        simp [roomDrop, hmem2]
      have h2 : roomDrop (some xs) y = some xs := by simp [roomDrop, hmem]
      rw [List.foldl_cons, List.foldl_cons, h1, h2, ih x xs hrest]

theorem roomDrop_foldl_filter (p : Nat → Bool) :
    ∀ conns : List Nat, conns ≠ [] →
      (conns.filter p).foldl roomDrop (some conns) =
        (if conns.filter (fun c => !(p c)) = [] then none
         else some (conns.filter (fun c => !(p c)))) := by
  intro conns
  induction conns with
  | nil => intro h; exact absurd rfl h
  | cons x xs ih =>
    intro _
    cases hp : p x with
    | true =>
      have hfx : (x :: xs).filter p = x :: xs.filter p := by simp [List.filter_cons, hp]
      have hdrop : roomDrop (some (x :: xs)) x =
          (if xs = [] then none else some xs) := by
        simp [roomDrop, List.erase_cons]
      rw [hfx, List.foldl_cons, hdrop]
      by_cases hxs : xs = []
      · subst hxs
        simp [roomDrop_foldl_none, List.filter_cons, hp]
      · rw [if_neg hxs, ih hxs]
        simp [List.filter_cons, hp]
    | false =>
      have hfx : (x :: xs).filter p = xs.filter p := by simp [List.filter_cons, hp]
      have hne : ∀ y ∈ xs.filter p, y ≠ x := by
        intro y hy
        have hpy : p y = true := List.of_mem_filter hy
        intro heq
        rw [heq, hp] at hpy
        exact Bool.false_ne_true hpy
      by_cases hxs : xs = []
      · subst hxs
        simp [List.filter_cons, hp]
      · rw [hfx, roomDrop_foldl_cons_ne (xs.filter p) x xs hne, ih hxs]
        by_cases hemp : xs.filter (fun c => !(p c)) = [] <;>
          simp [List.filter_cons, hp, hemp, optList]

/-- C5: `broadcast_to_chat` snapshots the member list and iterates sends over
the snapshot; every connection whose send raises is removed from the
registry by the `disconnect` calls within the same broadcast, while delivery
to the remaining sibling connections still completes (the delivered list is
exactly the non-failing members, in order); after the call the room holds
exactly the surviving members (the key is dropped if none survive).
Broadcasting to a room with no members returns without error and changes
nothing. -/
theorem broadcast_prunes_failed (fails : Nat → Bool) (reg : WSRegistry)
    (cid : String) :
    (∀ conns, lookupKey cid reg = some conns → conns ≠ [] →
      (wsBroadcast fails reg cid).2 = conns.filter (fun c => !(fails c)) ∧
      lookupKey cid (wsBroadcast fails reg cid).1 =
        (if conns.filter (fun c => !(fails c)) = [] then none
         else some (conns.filter (fun c => !(fails c))))) ∧
    (lookupKey cid reg = none → wsBroadcast fails reg cid = (reg, [])) := by
  constructor
  · intro conns hc hne
    refine ⟨?_, ?_⟩
    · simp only [wsBroadcast, hc, if_neg hne, sendLoop_eq fails conns [] [],
        List.nil_append]
    · simp only [wsBroadcast, hc, if_neg hne, sendLoop_eq fails conns [] [],
        List.nil_append]
      rw [lookupKey_foldl_wsDisconnect, hc, roomDrop_foldl_filter fails conns hne]
  · intro hc
    simp only [wsBroadcast, hc]

/-- Witness for C5: room "r" holds connections `[1, 2, 3]`, connection 2's
send raises; the broadcast delivers to 1 and 3 and the room ends as `[1, 3]`;
broadcasting to the absent room "empty" is a no-op. -/
theorem broadcast_prunes_failed_witness :
    ((wsBroadcast (fun c => c = 2) [("r", [1, 2, 3])] "r").2 = [1, 3] ∧
      lookupKey "r" (wsBroadcast (fun c => c = 2) [("r", [1, 2, 3])] "r").1 =
        some [1, 3]) ∧
    wsBroadcast (fun c => c = 2) [("r", [1, 2, 3])] "empty" =
      ([("r", [1, 2, 3])], []) := by
  have h := broadcast_prunes_failed (fun c => c = 2) [("r", [1, 2, 3])] "r"
  have h1 := h.1 [1, 2, 3] (by decide) (by decide)
  have h2 := (broadcast_prunes_failed (fun c => c = 2) [("r", [1, 2, 3])]
    "empty").2 (by decide)
  refine ⟨⟨?_, ?_⟩, h2⟩
  · rw [h1.1]; decide
  · rw [h1.2]; decide

/-! ## RedisSessionManager.delete_session (redis.py lines 99-117)

The deletion logic works purely on key names via `KEYS` glob patterns, so it
is modelled over the list of key names.  Every pattern the code issues is a
literal prefix followed by `*`, and a Redis glob `*` matches any characters
including `:` — so `session:{t}:chat:*` matches chat hashes *and* message
hashes (`session:{t}:chat:{c}:message:{m}`).  The inner query uses the
plural `...:messages:*`, which matches no stored key (messages are stored
under the singular `message`), but the outer `chat:*` deletions already
cover them.  Screenshot keys (`session:{t}:screenshot:{id}`, written by
`RedisStorage.store_screenshot`, redis.py lines 337-364) match neither
pattern and are not deleted.  `pipe.delete(...)` calls are collected and
applied as a set-removal at `pipe.execute()`. -/

def listIsPre : List Char → List Char → Bool
  | [], _ => true
  | _ :: _, [] => false
  | a :: as, b :: bs => a = b && listIsPre as bs

/-- Model of `key.startswith(pre)`, i.e. the glob pattern `pre + "*"` matches. -/
def strStartsWith (pre k : String) : Bool :=
  listIsPre pre.data k.data

def redisKeysGlob (store : List String) (pre : String) : List String :=
  store.filter (fun k => strStartsWith pre k)

/-- Model of `key.split(':')` on the character list. -/
def splitCol : List Char → List (List Char)
  | [] => [[]]
  | c :: rest =>
    match splitCol rest with
    | [] => [[]]
    | g :: gs => if c = ':' then [] :: g :: gs else (c :: g) :: gs

/-- Model of `chat_key.split(':')[-1]`. -/
def lastColonPart (k : String) : String :=
  String.mk ((splitCol k.data).getLastD [])

/-- Model of `RedisSessionManager.delete_session` on the keyspace. -/
def deleteSession (store : List String) (token : String) : List String :=
  let chatKeys := redisKeysGlob store ("session:" ++ token ++ ":chat:")
  let msgKeys := chatKeys.foldr
    (fun ck acc =>
      redisKeysGlob store
        ("session:" ++ token ++ ":chat:" ++ lastColonPart ck ++ ":messages:") ++ acc)
    []
  let toDelete := msgKeys ++ chatKeys ++ ["session:" ++ token]
  store.filter (fun k => !(toDelete.contains k))

/-- C8: explicit teardown of session "T" holding one chat "C" with one
message "M" and one stored screenshot "S".  The session record, the chat and
the chat's message are deleted, but the screenshot — a derived artifact of
the session — survives: `delete_session` issues deletions only for
`session:T`, and keys matching `session:T:chat:*` / the (never-matching)
`...:messages:*` pattern, and no pattern covers `session:T:screenshot:*`.
This contradicts the claimed cascade (and the function's own docstring,
"Delete a session and all its data"). -/
theorem delete_session_leaves_screenshots :
    deleteSession
        ["session:T", "session:T:chat:C", "session:T:chat:C:message:M",
         "session:T:screenshot:S"] "T" =
      ["session:T:screenshot:S"] := by
  decide

/-! ## IdentityBridge (redis_chat_service.py)

`uuid_to_objectid` computes `hashlib.md5(uuid_str.encode()).digest()[:12].hex()`
and `RedisChatService._objectid_to_uuid` reverses it by rescanning the
session's chats and recomputing the forward transform.  MD5 (RFC 1321) is
implemented executably below: words are naturals reduced mod 2^32, the
message is the UTF-8 byte list of the input string. -/

def rotl32 (x n : Nat) : Nat :=
  (((x <<< n) % 4294967296) ||| (x >>> (32 - n)))

/-- RFC 1321 sine table `T[i+1] = floor(2^32 * abs(sin(i+1)))`. -/
def md5K : List Nat :=
  [0xd76aa478, 0xe8c7b756, 0x242070db, 0xc1bdceee,
   0xf57c0faf, 0x4787c62a, 0xa8304613, 0xfd469501,
   0x698098d8, 0x8b44f7af, 0xffff5bb1, 0x895cd7be,
   0x6b901122, 0xfd987193, 0xa679438e, 0x49b40821,
   0xf61e2562, 0xc040b340, 0x265e5a51, 0xe9b6c7aa,
   0xd62f105d, 0x02441453, 0xd8a1e681, 0xe7d3fbc8,
   0x21e1cde6, 0xc33707d6, 0xf4d50d87, 0x455a14ed,
   0xa9e3e905, 0xfcefa3f8, 0x676f02d9, 0x8d2a4c8a,
   0xfffa3942, 0x8771f681, 0x6d9d6122, 0xfde5380c,
   0xa4beea44, 0x4bdecfa9, 0xf6bb4b60, 0xbebfbc70,
   0x289b7ec6, 0xeaa127fa, 0xd4ef3085, 0x04881d05,
   0xd9d4d039, 0xe6db99e5, 0x1fa27cf8, 0xc4ac5665,
   0xf4292244, 0x432aff97, 0xab9423a7, 0xfc93a039,
   0x655b59c3, 0x8f0ccc92, 0xffeff47d, 0x85845dd1,
   0x6fa87e4f, 0xfe2ce6e0, 0xa3014314, 0x4e0811a1,
   0xf7537e82, 0xbd3af235, 0x2ad7d2bb, 0xeb86d391]

def md5S : List Nat :=
  [7, 12, 17, 22, 7, 12, 17, 22, 7, 12, 17, 22, 7, 12, 17, 22,
   5, 9, 14, 20, 5, 9, 14, 20, 5, 9, 14, 20, 5, 9, 14, 20,
   4, 11, 16, 23, 4, 11, 16, 23, 4, 11, 16, 23, 4, 11, 16, 23,
   6, 10, 15, 21, 6, 10, 15, 21, 6, 10, 15, 21, 6, 10, 15, 21]

def md5GetD (l : List Nat) (i : Nat) : Nat := l.getD i 0

/-- Round function and message-word index for step `i`. -/
def md5F (i b c d : Nat) : Nat × Nat :=
  if i < 16 then ((b &&& c) ||| ((b ^^^ 0xffffffff) &&& d), i)
  else if i < 32 then ((d &&& b) ||| ((d ^^^ 0xffffffff) &&& c), (5 * i + 1) % 16)
  else if i < 48 then (b ^^^ c ^^^ d, (3 * i + 5) % 16)
  else (c ^^^ (b ||| (d ^^^ 0xffffffff)), (7 * i) % 16)

def md5Step (M : List Nat) (st : Nat × Nat × Nat × Nat) (i : Nat) :
    Nat × Nat × Nat × Nat :=
  let a := st.1
  let b := st.2.1
  let c := st.2.2.1
  let d := st.2.2.2
  let fg := md5F i b c d
  let f := (fg.1 + a + md5GetD md5K i + md5GetD M fg.2) % 4294967296
  (d, (b + rotl32 f (md5GetD md5S i)) % 4294967296, b, c)

def md5Block (st0 : Nat × Nat × Nat × Nat) (M : List Nat) :
    Nat × Nat × Nat × Nat :=
  let r := (List.range 64).foldl (md5Step M) st0
  ((st0.1 + r.1) % 4294967296, (st0.2.1 + r.2.1) % 4294967296,
   (st0.2.2.1 + r.2.2.1) % 4294967296, (st0.2.2.2 + r.2.2.2) % 4294967296)

def le32 (n : Nat) : List Nat :=
  [n % 256, (n / 256) % 256, (n / 65536) % 256, (n / 16777216) % 256]

def le64 (n : Nat) : List Nat :=
  le32 (n % 4294967296) ++ le32 (n / 4294967296)

/-- Pad to a multiple of 64 bytes: `0x80`, zeros, 8-byte little-endian bit
length. -/
def md5Pad (msg : List Nat) : List Nat :=
  let L := msg.length
  msg ++ [128] ++ List.replicate ((119 - L % 64) % 64) 0 ++
    le64 ((8 * L) % 18446744073709551616)

/-- Split into 64-byte chunks; the fuel (the list length) dominates the chunk count, so
this is total structural recursion that the kernel can evaluate. -/
def chunks64Fuel : Nat → List Nat → List (List Nat)
  | 0, _ => []
  | _ + 1, [] => []
  | fuel + 1, l => l.take 64 :: chunks64Fuel fuel (l.drop 64)

def chunks64 (l : List Nat) : List (List Nat) := chunks64Fuel l.length l

/-- The 16 little-endian 32-bit words of one 64-byte block. -/
def leWords (block : List Nat) : List Nat :=
  (List.range 16).map (fun j =>
    md5GetD block (4 * j) + 256 * md5GetD block (4 * j + 1) +
      65536 * md5GetD block (4 * j + 2) + 16777216 * md5GetD block (4 * j + 3))

/-- MD5 digest (16 bytes) of a byte list. -/
def md5Bytes (msg : List Nat) : List Nat :=
  let blocks := (chunks64 (md5Pad msg)).map leWords
  let r := blocks.foldl md5Block (0x67452301, 0xefcdab89, 0x98badcfe, 0x10325476)
  le32 r.1 ++ le32 r.2.1 ++ le32 r.2.2.1 ++ le32 r.2.2.2

def hexDigitChar (n : Nat) : Char :=
  if n < 10 then Char.ofNat (48 + n) else Char.ofNat (87 + n)

/-- Model of `bytes.hex()`: lowercase hex string. -/
def bytesToHex (l : List Nat) : String :=
  String.mk (l.foldr (fun b acc => hexDigitChar (b / 16) :: hexDigitChar (b % 16) :: acc) [])

def utf8EncodeChar (c : Nat) : List Nat :=
  if c < 128 then [c]
  else if c < 2048 then [192 + c / 64, 128 + c % 64]
  else if c < 65536 then [224 + c / 4096, 128 + (c / 64) % 64, 128 + c % 64]
  else [240 + c / 262144, 128 + (c / 4096) % 64, 128 + (c / 64) % 64, 128 + c % 64]

/-- Model of `uuid_str.encode()`: the UTF-8 bytes of the string. -/
def strBytes (s : String) : List Nat :=
  (s.data.map (fun ch => utf8EncodeChar ch.toNat)).flatten

set_option maxRecDepth 100000

/-- Sanity check of the MD5 embedding against the RFC 1321 test suite. -/
theorem md5_test_vectors :
    bytesToHex (md5Bytes (strBytes "abc")) = "900150983cd24fb0d6963f7d28e17f72" ∧
      bytesToHex (md5Bytes (strBytes "")) = "d41d8cd98f00b204e9800998ecf8427e" := by
  constructor <;> rfl

/-- Model of `uuid_to_objectid` (redis_chat_service.py lines 13-17):
`PydanticObjectId(hashlib.md5(uuid_str.encode()).digest()[:12].hex())`,
rendered as its 24-character hex string. -/
def uuid_to_objectid (uuid_str : String) : String :=
  bytesToHex ((md5Bytes (strBytes uuid_str)).take 12)

/-- Model of `RedisChatService._objectid_to_uuid` (lines 36-52): rescan the session's
chat ids, recomputing the forward transform until it matches; `none` models
the raised `ValueError` when nothing matches. -/
def objectid_to_uuid : List String → String → Option String
  | [], _ => none
  | cid :: rest, oid =>
    if uuid_to_objectid cid = oid then some cid else objectid_to_uuid rest oid

/-- C6: the forward transform is a pure function of the uuid string
(deterministic by construction — both occurrences below are the same
function application), and for every internal room id among a session's
chats, the reverse scan applied to the forward image returns that same id,
provided no other chat id of the session collides with it under the forward
transform. -/
theorem identity_roundtrip (ids : List String) (id : String)
    (hmem : id ∈ ids)
    (hinj : ∀ id2 ∈ ids, uuid_to_objectid id2 = uuid_to_objectid id → id2 = id) :
    objectid_to_uuid ids (uuid_to_objectid id) = some id := by
  induction ids with
  | nil => cases hmem
  | cons cid rest ih =>
    by_cases hhit : uuid_to_objectid cid = uuid_to_objectid id
    · have : cid = id := hinj cid (by simp) hhit
      subst this
      simp [objectid_to_uuid, hhit]
    · have hne : cid ≠ id := fun h => hhit (h ▸ rfl)
      have hmem2 : id ∈ rest := by
        cases hmem with
        | head => exact absurd rfl hne
        | tail _ h => exact h
      simp only [objectid_to_uuid, if_neg hhit]
      exact ih hmem2 (fun id2 h2 he => hinj id2 (by simp [h2]) he)

/-- Witness for C6 on a concrete session with two chat ids in uuid4 shape. -/
theorem identity_roundtrip_witness :
    objectid_to_uuid
        ["1b4e28ba-2fa1-11d2-883f-0016d3cca427",
         "6fa459ea-ee8a-3ca4-894e-db77e160355e"]
        (uuid_to_objectid "6fa459ea-ee8a-3ca4-894e-db77e160355e") =
      some "6fa459ea-ee8a-3ca4-894e-db77e160355e" :=
  identity_roundtrip
    ["1b4e28ba-2fa1-11d2-883f-0016d3cca427",
     "6fa459ea-ee8a-3ca4-894e-db77e160355e"]
    "6fa459ea-ee8a-3ca4-894e-db77e160355e"
    (by simp)
    (by
      intro id2 h2 he
      rcases List.mem_cons.mp h2 with h | h
      · exact absurd (h ▸ he) (by decide)
      · simpa using h)

end Saqr
